import Mathlib

/-!
Verification of the ag-trader tick-pipeline core: a shallow embedding of the
trading state machine (`stateMachine.ts`), the regime engine
(`regimeEngine.ts`), the risk gate (`riskGate.ts`) and the volatility filter
(`tradeFilters.ts` / indicators), with theorems settling the spec's claims.

Modelling conventions:
- JS `number` is modelled as `ℚ` for prices/PnL and `ℤ` for counters that
  the code floors at 0 via `Math.max`; timestamps (`Date`) are `ℤ`
  milliseconds passed explicitly where the code calls `new Date()`.
- Mutation of the singleton `TradingStateMachine` is explicit state passing:
  a method that mutates returns the updated `Machine`.
- JS truthiness on `priceMap[symbol]` (missing key or value 0 are both
  falsy) is modelled by `truthyPrice`.
- `reason` strings of risk-check results use JS `toFixed` float formatting;
  the embedding keeps each check's `name` and `passed` fields, which is all
  the control flow and the claims depend on.
-/

namespace AgTrader

/-! ### String containment helpers (for `exitReason.toLowerCase().includes(...)`) -/

/-- `isPrefOf n h` is true iff the char list `n` is a prefix of `h`. -/
def isPrefOf : List Char → List Char → Bool
  | [], _ => true
  | _ :: _, [] => false
  | a :: as, b :: bs => a == b && isPrefOf as bs

/-- `isSubOf n h` is true iff the char list `n` occurs contiguously in `h`;
models JS `String.prototype.includes`. -/
def isSubOf (n : List Char) : List Char → Bool
  | [] => isPrefOf n []
  | b :: bs => isPrefOf n (b :: bs) || isSubOf n bs

/-- `reason.toLowerCase()` as a char list: ASCII per-char lowercasing. -/
def lowerStr (s : String) : List Char := s.data.map Char.toLower

/-- `reason.toLowerCase().includes('stop') || reason.toLowerCase().includes('sl')`:
the exit-reason text test inside `closePosition`. -/
def stopLossText (reason : String) : Bool :=
  isSubOf "stop".data (lowerStr reason) || isSubOf "sl".data (lowerStr reason)

/-! ### Data model (`stateMachine.ts`) -/

/-- `SystemState` from `stateMachine.ts`. -/
inductive SystemState
  | idle
  | waitingForTrigger
  | positionOpen
  | lockedAfterLoss
  | haltedForDay
  deriving DecidableEq, Repr

/-- Position lifecycle state of `ManagedPosition.state`. -/
inductive PosState
  | pending
  | filled
  | partialFill
  | closed
  deriving DecidableEq, Repr

/-- `'LONG' | 'SHORT'`. -/
inductive Side
  | long
  | short
  deriving DecidableEq, Repr

def sideStr : Side → String
  | .long => "LONG"
  | .short => "SHORT"

/-- `ManagedPosition` from `stateMachine.ts` (`entryTime` as ms). -/
structure ManagedPosition where
  id : String
  symbol : String
  side : Side
  entry : ℚ
  current : ℚ
  qty : ℚ
  pnl : ℚ
  stopLoss : ℚ
  target : ℚ
  entryTime : ℤ
  state : PosState
  regime : String
  exitReason : Option String
  deriving DecidableEq, Repr

/-- `StateTransition` log record (the unused optional `metadata` field is
omitted). -/
structure StateTransition where
  src : SystemState
  dst : SystemState
  trigger : String
  timestamp : ℤ
  deriving DecidableEq, Repr

/-- `StateMachineConfig`. -/
structure StateMachineConfig where
  lockDurationMs : ℤ
  maxDailyLosses : ℕ
  maxConcurrentPositions : ℕ
  deriving DecidableEq, Repr

/-- The mutable fields of `TradingStateMachine` (its `config` is passed
separately to each method). -/
structure Machine where
  state : SystemState
  positions : List ManagedPosition
  transitions : List StateTransition
  dailyLossCount : ℕ
  lockUntil : Option ℤ
  deriving DecidableEq, Repr

/-- The machine as constructed: `state = 'IDLE'`, empty lists, zero counter,
no lock. -/
def initialMachine : Machine :=
  { state := .idle, positions := [], transitions := [], dailyLossCount := 0,
    lockUntil := none }

/-- `transitionTo`: push a transition record, keep only the last 50, set the
new state. -/
def transitionTo (m : Machine) (newState : SystemState) (trigger : String)
    (now : ℤ) : Machine :=
  let ts := m.transitions ++ [⟨m.state, newState, trigger, now⟩]
  let ts := if ts.length > 50 then ts.drop (ts.length - 50) else ts
  { m with transitions := ts, state := newState }

/-- `getOpenPositions()`: positions in state FILLED or PARTIAL. -/
def getOpenPositions (m : Machine) : List ManagedPosition :=
  m.positions.filter (fun p => p.state == .filled || p.state == .partialFill)

/-- The read-time side effect of `getState()`: if locked and `now > lockUntil`,
self-transition to IDLE. -/
def getStateUpd (m : Machine) (now : ℤ) : Machine :=
  match m.state, m.lockUntil with
  | .lockedAfterLoss, some t =>
      if now > t then transitionTo m .idle "Lock period expired" now else m
  | _, _ => m

/-- `getState()` as observed by callers. -/
def getState (m : Machine) (now : ℤ) : SystemState :=
  (getStateUpd m now).state

/-- `canOpenPosition()`: returns the machine after `getState()`'s side effect
together with the `allowed` flag (the human-readable `reason` is dropped). -/
def canOpenPosition (cfg : StateMachineConfig) (m : Machine) (now : ℤ) :
    Machine × Bool :=
  let m' := getStateUpd m now
  match m'.state with
  | .haltedForDay => (m', false)
  | .lockedAfterLoss => (m', false)
  | .positionOpen =>
      (m', decide ((getOpenPositions m').length < cfg.maxConcurrentPositions))
  | .idle => (m', true)
  | .waitingForTrigger => (m', true)

/-- The caller-supplied fields of `openPosition`'s argument
(`Omit<ManagedPosition, 'id' | 'state' | 'entryTime'>`). -/
structure OpenPositionInput where
  symbol : String
  side : Side
  entry : ℚ
  current : ℚ
  qty : ℚ
  pnl : ℚ
  stopLoss : ℚ
  target : ℚ
  regime : String
  exitReason : Option String
  deriving DecidableEq, Repr

/-- `openPosition`: gate on `canOpenPosition`, append a FILLED position,
transition to POSITION_OPEN. The generated random id is passed in as
`newId`. -/
def openPosition (cfg : StateMachineConfig) (m : Machine) (now : ℤ)
    (newId : String) (pos : OpenPositionInput) :
    Machine × Option ManagedPosition :=
  let r := canOpenPosition cfg m now
  if !r.2 then (r.1, none)
  else
    let newPosition : ManagedPosition :=
      { id := newId, symbol := pos.symbol, side := pos.side,
        entry := pos.entry, current := pos.current, qty := pos.qty,
        pnl := pos.pnl, stopLoss := pos.stopLoss, target := pos.target,
        entryTime := now, state := .filled, regime := pos.regime,
        exitReason := pos.exitReason }
    let m₁ := { r.1 with positions := r.1.positions ++ [newPosition] }
    let m₂ := transitionTo m₁ .positionOpen
      ("Opened " ++ sideStr pos.side ++ " " ++ pos.symbol) now
    (m₂, some newPosition)

/-- `Number(x.toFixed(2))`: rounding to 2 decimals (JS round-half semantics on
binary doubles approximated by rational rounding). -/
def toFixed2 (x : ℚ) : ℚ := (round (x * 100) : ℤ) / 100

/-- Replace the first element satisfying `pred` by its image under `f`;
models in-place mutation of the object returned by `Array.prototype.find`. -/
def updateFirst (pred : α → Bool) (f : α → α) : List α → List α
  | [] => []
  | x :: xs => if pred x then f x :: xs else x :: updateFirst pred f xs

/-- The freshly computed PnL of `closePosition`:
`(exit − entry) × qty` for LONG, inverted for SHORT. -/
def finalPnlOf (p : ManagedPosition) (exitPrice : ℚ) : ℚ :=
  match p.side with
  | .long => (exitPrice - p.entry) * p.qty
  | .short => (p.entry - exitPrice) * p.qty

/-- The in-place mutation of the found position inside `closePosition`:
`current = exitPrice`, `pnl = toFixed(2)`, `state = CLOSED`, `exitReason`. -/
def closedPositionUpdate (position : ManagedPosition) (exitReason : String)
    (exitPrice : ℚ) : ManagedPosition :=
  { position with
      current := exitPrice, pnl := toFixed2 (finalPnlOf position exitPrice),
      state := .closed, exitReason := some exitReason }

/-- The loss-count / transition tail of `closePosition`, operating on the
machine `m₁` whose position list has already been updated. -/
def closeBookkeeping (cfg : StateMachineConfig) (m₁ : Machine)
    (finalPnl : ℚ) (exitReason : String) (now : ℤ) : Machine :=
  let isStopLoss := stopLossText exitReason || decide (finalPnl < 0)
  if isStopLoss && decide (finalPnl < 0) then
    let m₁ := { m₁ with dailyLossCount := m₁.dailyLossCount + 1 }
    if m₁.dailyLossCount ≥ cfg.maxDailyLosses then
      transitionTo m₁ .haltedForDay
        ("Max daily losses (" ++ toString cfg.maxDailyLosses ++ ") reached")
        now
    else
      let m₁ := { m₁ with lockUntil := some (now + cfg.lockDurationMs) }
      transitionTo m₁ .lockedAfterLoss
        ("Stop-loss hit (" ++ toString m₁.dailyLossCount ++ "/" ++
          toString cfg.maxDailyLosses ++ ")") now
  else
    if (getOpenPositions m₁).length == 0 then
      transitionTo m₁ .idle "All positions closed" now
    else m₁

/-- The position list after the in-place mutation of the found position. -/
def updatedPositions (m : Machine) (positionId : String)
    (u : ManagedPosition) : List ManagedPosition :=
  updateFirst (fun p => p.id == positionId) (fun _ => u) m.positions

/-- `closePosition(positionId, exitReason, exitPrice)`. -/
def closePosition (cfg : StateMachineConfig) (m : Machine)
    (positionId : String) (exitReason : String) (exitPrice : ℚ) (now : ℤ) :
    Machine × Option ManagedPosition :=
  match m.positions.find? (fun p => p.id == positionId) with
  | none => (m, none)
  | some position =>
    if position.state == .closed then (m, none)
    else
      let updated := closedPositionUpdate position exitReason exitPrice
      let m₁ := { m with positions := updatedPositions m positionId updated }
      (closeBookkeeping cfg m₁ (finalPnlOf position exitPrice) exitReason now,
        some updated)

/-- `resetForNewDay()`. -/
def resetForNewDay (m : Machine) (now : ℤ) : Machine :=
  let m₁ :=
    { m with
        dailyLossCount := 0, lockUntil := none,
        positions := m.positions.filter (fun p => p.state != .closed) }
  let m₂ :=
    if m₁.state == .haltedForDay || m₁.state == .lockedAfterLoss then
      transitionTo m₁ .idle "New trading day" now
    else m₁
  { m₂ with transitions := [] }

/-! ### Price updates and exit checks (`stateMachine.ts`) -/

/-- Lookup in the `priceMap` record. -/
def lookupPrice (pm : List (String × ℚ)) (sym : String) : Option ℚ :=
  (pm.find? (fun e => e.1 == sym)).map (fun e => e.2)

/-- JS truthiness of `priceMap[symbol]`: a missing key and a price of `0` are
both falsy. -/
def truthyPrice (pm : List (String × ℚ)) (sym : String) : Option ℚ :=
  match lookupPrice pm sym with
  | some v => if v = 0 then none else some v
  | none => none

/-- The per-position body of `updatePositionPrices`. -/
def updOnePrice (pm : List (String × ℚ)) (p : ManagedPosition) :
    ManagedPosition :=
  if p.state == .filled then
    match truthyPrice pm p.symbol with
    | some price =>
        let pnl :=
          match p.side with
          | .long => (price - p.entry) * p.qty
          | .short => (p.entry - price) * p.qty
        { p with current := price, pnl := toFixed2 pnl }
    | none => p
  else p

/-- `updatePositionPrices(priceMap)`. -/
def updatePositionPrices (m : Machine) (pm : List (String × ℚ)) : Machine :=
  { m with positions := m.positions.map (updOnePrice pm) }

/-- One iteration of the `checkExits` loop for a snapshot position `p`:
stop-loss check then target check, each closing via `closePosition`. -/
def exitStep (cfg : StateMachineConfig) (pm : List (String × ℚ)) (now : ℤ)
    (acc : Machine × List String) (p : ManagedPosition) :
    Machine × List String :=
  match truthyPrice pm p.symbol with
  | none => acc
  | some currentPrice =>
    let acc :=
      if p.side == .long && decide (currentPrice ≤ p.stopLoss) then
        ((closePosition cfg acc.1 p.id "Stop-loss hit" currentPrice now).1,
          acc.2 ++ [p.symbol ++ " SL @ " ++ toString currentPrice])
      else if p.side == .short && decide (currentPrice ≥ p.stopLoss) then
        ((closePosition cfg acc.1 p.id "Stop-loss hit" currentPrice now).1,
          acc.2 ++ [p.symbol ++ " SL @ " ++ toString currentPrice])
      else acc
    if p.side == .long && decide (currentPrice ≥ p.target) then
      ((closePosition cfg acc.1 p.id "Target hit" currentPrice now).1,
        acc.2 ++ [p.symbol ++ " TGT @ " ++ toString currentPrice])
    else if p.side == .short && decide (currentPrice ≤ p.target) then
      ((closePosition cfg acc.1 p.id "Target hit" currentPrice now).1,
        acc.2 ++ [p.symbol ++ " TGT @ " ++ toString currentPrice])
    else acc

/-- `checkExits(priceMap)`: iterate over the snapshot of open positions and
close each on stop/target breach; returns the machine and the log lines. -/
def checkExits (cfg : StateMachineConfig) (m : Machine)
    (pm : List (String × ℚ)) (now : ℤ) : Machine × List String :=
  (getOpenPositions m).foldl (exitStep cfg pm now) (m, [])

/-! ### Regime engine (`regimeEngine.ts`) -/

/-- `MarketRegime`. -/
inductive MarketRegime
  | rangeNeutral
  | emergingTrend
  | establishedTrend
  deriving DecidableEq, Repr

/-- `'NORMAL' | 'REDUCED' | 'HALTED'`. -/
inductive TradingFrequency
  | normal
  | reduced
  | halted
  deriving DecidableEq, Repr

/-- `RegimePermissions`. -/
structure RegimePermissions where
  regime : MarketRegime
  allowMeanReversion : Bool
  allowTrendFollowing : Bool
  maxPositionSizeMultiplier : ℚ
  maxConcurrentTrades : ℕ
  tradingFrequency : TradingFrequency
  deriving DecidableEq, Repr

/-- History entry of the TSD engine (date, isTSD, trendShift, baseRange). -/
structure TSDHistoryEntry where
  date : ℤ
  isTSD : Bool
  trendShift : ℚ
  baseRange : ℚ
  deriving DecidableEq, Repr

/-- `TSDEngineState`. -/
structure TSDEngineState where
  tsdCount : ℤ
  lastTSDDate : Option ℤ
  regime : MarketRegime
  history : List TSDHistoryEntry
  deriving DecidableEq, Repr

/-- The module-level initial engine state (also what `initializeTSDEngine`
resets to). -/
def initialTSDEngineState : TSDEngineState :=
  { tsdCount := 0, lastTSDDate := none, regime := .rangeNeutral, history := [] }

/-- `determineRegime(tsdCount, thresholdA, thresholdB)` (defaults 3 and 7 at
the call sites). -/
def determineRegime (tsdCount thresholdA thresholdB : ℤ) : MarketRegime :=
  if tsdCount < thresholdA then .rangeNeutral
  else if tsdCount < thresholdB then .emergingTrend
  else .establishedTrend

/-- `updateTSDCount(isTSD)`: increment on a TSD (recording the date),
otherwise decay by 1 floored at 0; then recompute the regime with the
default thresholds. `today` is the date the code computes from `new Date()`. -/
def updateTSDCount (isTSD : Bool) (today : ℤ) (s : TSDEngineState) :
    TSDEngineState :=
  let s :=
    if isTSD then
      { s with tsdCount := s.tsdCount + 1, lastTSDDate := some today }
    else
      { s with tsdCount := max 0 (s.tsdCount - 1) }
  { s with regime := determineRegime s.tsdCount 3 7 }

/-- `getRegimePermissions(regime)`. -/
def getRegimePermissions (regime : MarketRegime) : RegimePermissions :=
  match regime with
  | .rangeNeutral =>
      { regime := .rangeNeutral, allowMeanReversion := true,
        allowTrendFollowing := false, maxPositionSizeMultiplier := 1,
        maxConcurrentTrades := 4, tradingFrequency := .normal }
  | .emergingTrend =>
      { regime := .emergingTrend, allowMeanReversion := true,
        allowTrendFollowing := true, maxPositionSizeMultiplier := 1/2,
        maxConcurrentTrades := 2, tradingFrequency := .reduced }
  | .establishedTrend =>
      { regime := .establishedTrend, allowMeanReversion := false,
        allowTrendFollowing := true, maxPositionSizeMultiplier := 1/4,
        maxConcurrentTrades := 1, tradingFrequency := .reduced }

/-- Rank of a regime in the order RANGE_NEUTRAL < EMERGING_TREND <
ESTABLISHED_TREND, used to state monotonicity. -/
def regimeRank : MarketRegime → ℕ
  | .rangeNeutral => 0
  | .emergingTrend => 1
  | .establishedTrend => 2

/-! ### Risk gate (`riskGate.ts`) -/

/-- `TradeSignal`. -/
structure TradeSignal where
  symbol : String
  side : Side
  entry : ℚ
  stop : ℚ
  target : ℚ
  requestedQty : Option ℚ
  deriving DecidableEq, Repr

/-- `RiskGateConfig`. -/
structure RiskGateConfig where
  maxRiskPerTrade : ℚ
  maxDailyDrawdown : ℚ
  maxDailyLoss : ℚ
  maxConcurrentPositions : ℕ
  maxCorrelatedPositions : ℕ
  maxSingleStockExposure : ℚ
  deriving DecidableEq, Repr

/-- One element of `RiskCheckResult.checks` (the formatted `reason` string is
dropped; control flow uses only `passed`). -/
structure RiskCheckItem where
  name : String
  passed : Bool
  deriving DecidableEq, Repr

/-- `RiskCheckResult` as returned by `validateTrade` (which always sets
`adjustedSize`). -/
structure RiskCheckResult where
  passed : Bool
  checks : List RiskCheckItem
  adjustedSize : ℚ
  deriving DecidableEq, Repr

/-- The static `SECTOR_MAP` table. -/
def SECTOR_MAP : List (String × String) :=
  [("RELIANCE", "Energy"), ("TCS", "IT"), ("INFY", "IT"), ("WIPRO", "IT"),
   ("HDFCBANK", "Banking"), ("ICICIBANK", "Banking"), ("SBIN", "Banking"),
   ("AXISBANK", "Banking"), ("KOTAKBANK", "Banking"),
   ("BHARTIARTL", "Telecom"), ("ITC", "FMCG"), ("LT", "Infra"),
   ("MARUTI", "Auto"), ("TITAN", "Consumer"), ("SUNPHARMA", "Pharma"),
   ("BAJFINANCE", "Finance"), ("NESTLEIND", "FMCG"),
   ("ADANIENT", "Diversified"), ("TATASTEEL", "Metals"),
   ("POWERGRID", "Power")]

/-- `SECTOR_MAP[symbol]` (an `Option`: `undefined` when unmapped). -/
def sectorLookup (sym : String) : Option String :=
  (SECTOR_MAP.find? (fun e => e.1 == sym)).map (fun e => e.2)

/-- Check 1: per-trade risk. (Rational division-by-zero gives 0 where JS
`x / 0` gives Infinity; the claims below always hypothesise `entry ≠ stop`
or do not touch this check.) -/
def checkPerTradeRisk (cfg : RiskGateConfig) (signal : TradeSignal)
    (capital : ℚ) : RiskCheckItem :=
  let stopDistance := |signal.entry - signal.stop|
  let maxRiskAmount := capital * cfg.maxRiskPerTrade
  let maxQty : ℚ := (⌊maxRiskAmount / stopDistance⌋ : ℤ)
  let requestedRisk := (signal.requestedQty.getD maxQty) * stopDistance
  let riskPercent := requestedRisk / capital * 100
  { name := "Per-Trade Risk",
    passed := decide (riskPercent ≤ cfg.maxRiskPerTrade * 100) }

/-- Check 2: daily drawdown (only evaluated in loss). -/
def checkDailyDrawdown (cfg : RiskGateConfig) (currentPnl capital : ℚ) :
    RiskCheckItem :=
  if 0 ≤ currentPnl then { name := "Daily Drawdown", passed := true }
  else
    { name := "Daily Drawdown",
      passed := decide (|currentPnl| / capital < cfg.maxDailyDrawdown) }

/-- Check 3: absolute daily loss cap. -/
def checkMaxDailyLoss (cfg : RiskGateConfig) (currentPnl : ℚ) :
    RiskCheckItem :=
  if 0 ≤ currentPnl then { name := "Max Daily Loss", passed := true }
  else
    { name := "Max Daily Loss",
      passed := decide (|currentPnl| < cfg.maxDailyLoss) }

/-- Check 4: concurrent-position cap, `min(gate cap, regime cap)`. -/
def checkMaxPositions (cfg : RiskGateConfig) (currentCount : ℕ)
    (regime : MarketRegime) : RiskCheckItem :=
  let permissions := getRegimePermissions regime
  let limit := min cfg.maxConcurrentPositions permissions.maxConcurrentTrades
  { name := "Max Positions", passed := decide (currentCount < limit) }

/-- Check 5: sector correlation. `SECTOR_MAP[p.symbol] === newSector` is
false for unmapped open positions because `newSector` is never `undefined`. -/
def checkCorrelation (cfg : RiskGateConfig) (symbol : String)
    (openPositions : List ManagedPosition) : RiskCheckItem :=
  let newSector := (sectorLookup symbol).getD "Unknown"
  let sectorCount :=
    (openPositions.filter (fun p => sectorLookup p.symbol == some newSector)).length
  { name := "Correlation",
    passed := decide (sectorCount < cfg.maxCorrelatedPositions) }

/-- Check 6: single-stock exposure. -/
def checkSingleStockExposure (cfg : RiskGateConfig) (signal : TradeSignal)
    (capital : ℚ) (openPositions : List ManagedPosition) : RiskCheckItem :=
  let existingExposure :=
    ((openPositions.filter (fun p => p.symbol == signal.symbol)).foldl
      (fun sum p => sum + p.entry * p.qty) 0)
  let newExposure := signal.entry * (signal.requestedQty.getD 1)
  let totalExposure := existingExposure + newExposure
  let exposurePercent := totalExposure / capital
  { name := "Single Stock Exposure",
    passed := decide (exposurePercent ≤ cfg.maxSingleStockExposure) }

/-- Check 7: state-machine permission (delegates to `canOpenPosition` of the
singleton machine, passed here explicitly). -/
def checkStateMachine (smCfg : StateMachineConfig) (machine : Machine)
    (now : ℤ) : RiskCheckItem :=
  { name := "System State", passed := (canOpenPosition smCfg machine now).2 }

/-- Check 8: regime permission (mean reversion only, as in the source). -/
def checkRegimePermission (regime : MarketRegime) : RiskCheckItem :=
  { name := "Regime Permission",
    passed := (getRegimePermissions regime).allowMeanReversion }

/-- `calculatePositionSize(signal, capital)`:
`floor(riskAmount / stopDistance)`, or 1 when the stop distance is zero. -/
def calculatePositionSize (cfg : RiskGateConfig) (signal : TradeSignal)
    (capital : ℚ) : ℚ :=
  let riskAmount := capital * cfg.maxRiskPerTrade
  let stopDistance := |signal.entry - signal.stop|
  if stopDistance = 0 then 1
  else ((⌊riskAmount / stopDistance⌋ : ℤ) : ℚ)

/-- `validateTrade(signal, capital, currentPnl, regime, openPositions)`:
the eight checks, the size adjustment, and the overall pass flag. -/
def validateTrade (cfg : RiskGateConfig) (smCfg : StateMachineConfig)
    (machine : Machine) (now : ℤ) (signal : TradeSignal)
    (capital currentPnl : ℚ) (regime : MarketRegime)
    (openPositions : List ManagedPosition) : RiskCheckResult :=
  let checks : List RiskCheckItem :=
    [checkPerTradeRisk cfg signal capital,
     checkDailyDrawdown cfg currentPnl capital,
     checkMaxDailyLoss cfg currentPnl,
     checkMaxPositions cfg openPositions.length regime,
     checkCorrelation cfg signal.symbol openPositions,
     checkSingleStockExposure cfg signal capital openPositions,
     checkStateMachine smCfg machine now,
     checkRegimePermission regime]
  let regimePermissions := getRegimePermissions regime
  let adjustedQty :=
    signal.requestedQty.getD (calculatePositionSize cfg signal capital)
  let adjustedQty : ℚ :=
    ((⌊adjustedQty * regimePermissions.maxPositionSizeMultiplier⌋ : ℤ) : ℚ)
  let adjustedQty := max 1 adjustedQty
  { passed := checks.all (fun c => c.passed),
    checks := checks,
    adjustedSize := adjustedQty }

/-! ### Indicators (`indicators.ts`) and the volatility filter
(`tradeFilters.ts`) -/

/-- `OHLCV` candle. -/
structure OHLCV where
  symbol : String
  open_ : ℚ
  high : ℚ
  low : ℚ
  close : ℚ
  volume : ℚ
  timestamp : Option ℤ
  deriving DecidableEq, Repr

/-- One step of the EMA recurrence:
`newEMA = (price − prevEMA) × multiplier + prevEMA`, appended. -/
def emaStep (multiplier : ℚ) (acc : List ℚ) (price : ℚ) : List ℚ :=
  let prevEMA := (acc.getLast?).getD 0
  acc ++ [(price - prevEMA) * multiplier + prevEMA]

/-- `calculateEMA(prices, period)` from `indicators.ts`: empty in, empty out;
below `period` values, a constant SMA list; otherwise seed with the SMA of
the first `period` values and iterate the EMA recurrence. -/
def calculateEMA (prices : List ℚ) (period : ℕ) : List ℚ :=
  if prices.length = 0 then []
  else if prices.length < period then
    let sma := prices.sum / prices.length
    prices.map (fun _ => sma)
  else
    let multiplier : ℚ := 2 / (period + 1)
    let initialSMA := (prices.take period).sum / period
    (prices.drop period).foldl (emaStep multiplier) [initialSMA]

/-- True ranges of the tail candles, each
`max(high − low, |high − prevClose|, |low − prevClose|)`. -/
def trTail (prev : OHLCV) : List OHLCV → List ℚ
  | [] => []
  | c :: rest =>
      max (c.high - c.low) (max (|c.high - prev.close|) (|c.low - prev.close|))
        :: trTail c rest

/-- `calculateATR(candles, period)`: `[0]` for fewer than two candles, else
the EMA of the true-range series whose first entry is `high − low` of the
first candle. -/
def calculateATR (candles : List OHLCV) (period : ℕ) : List ℚ :=
  match candles with
  | c0 :: c1 :: rest =>
      calculateEMA ((c0.high - c0.low) :: trTail c0 (c1 :: rest)) period
  | _ => [0]

/-- `getCurrentATR(candles, period)`: last ATR value, 0 for an empty series. -/
def getCurrentATR (candles : List OHLCV) (period : ℕ) : ℚ :=
  ((calculateATR candles period).getLast?).getD 0

/-- `Math.max(...xs)` over a list known nonempty at the call site (0 for the
unreachable empty case). -/
def listMaxD : List ℚ → ℚ
  | [] => 0
  | x :: xs => xs.foldl max x

/-- `Math.min(...xs)`, dually. -/
def listMinD : List ℚ → ℚ
  | [] => 0
  | x :: xs => xs.foldl min x

/-- The first-hour range used by `shouldSkipToday`: high−low spread of the
last 12 candles (`candles.slice(-12)`). -/
def firstHourRange (candles : List OHLCV) : ℚ :=
  let recentCandles := candles.drop (candles.length - 12)
  listMaxD (recentCandles.map (fun c => c.high)) -
    listMinD (recentCandles.map (fun c => c.low))

/-- `shouldSkipToday(candles)` from `tradeFilters.ts`, returning
`(skip, reason)`. The threshold `RISK_CONFIG.MIN_FIRST_HOUR_RANGE_ATR` lives
in `riskEngine.ts`, which is not part of the sources here, so the configured
minimum is taken as the explicit parameter `minRatio`. The guard
`!atr || atr <= 0` is `atr ≤ 0` on rationals (`!atr` catches exactly 0). -/
def shouldSkipToday (minRatio : ℚ) (candles : List OHLCV) : Bool × String :=
  if candles.length < 20 then
    (true, "Insufficient data for volatility check")
  else
    let atr := getCurrentATR candles 14
    if atr ≤ 0 then (false, "ATR unavailable, proceeding cautiously")
    else
      let rangeRatio := firstHourRange candles / atr
      if rangeRatio < minRatio then (true, "Low volatility day")
      else (false, "Volatility OK")

/-! ### Concrete fixtures used by counterexamples and witnesses -/

/-- The default `StateMachineConfig` of the constructor. -/
def cfgDefault : StateMachineConfig :=
  { lockDurationMs := 300000, maxDailyLosses := 3, maxConcurrentPositions := 4 }

/-- A filled LONG position used by several concrete scenarios. -/
def fixPos : ManagedPosition :=
  { id := "p1", symbol := "RELIANCE", side := .long, entry := 100,
    current := 100, qty := 1, pnl := 0, stopLoss := 95, target := 110,
    entryTime := 0, state := .filled, regime := "RANGE_NEUTRAL",
    exitReason := none }

/-- A machine with one open position. -/
def fixMachine : Machine :=
  { state := .positionOpen, positions := [fixPos], transitions := [],
    dailyLossCount := 0, lockUntil := none }

/-- A closed losing position. -/
def fixClosedA : ManagedPosition :=
  { id := "c1", symbol := "TCS", side := .long, entry := 50, current := 48,
    qty := 2, pnl := -4, stopLoss := 48, target := 55, entryTime := 0,
    state := .closed, regime := "RANGE_NEUTRAL",
    exitReason := some "Stop-loss hit" }

/-- A second closed losing position. -/
def fixClosedB : ManagedPosition :=
  { id := "c2", symbol := "INFY", side := .short, entry := 30, current := 31,
    qty := 1, pnl := -1, stopLoss := 31, target := 28, entryTime := 1,
    state := .closed, regime := "RANGE_NEUTRAL",
    exitReason := some "Stop-loss hit" }

/-- The C2 scenario machine: HALTED_FOR_DAY with 2 closed + 1 open position. -/
def haltedMachine : Machine :=
  { state := .haltedForDay, positions := [fixClosedA, fixClosedB, fixPos],
    transitions := [⟨.positionOpen, .haltedForDay,
      "Max daily losses (3) reached", 5⟩],
    dailyLossCount := 3, lockUntil := none }

/-- Run the TSD engine over a list of `(isTSD, today)` daily inputs from the
initial module state. -/
def tsdRun (l : List (Bool × ℤ)) : TSDEngineState :=
  l.foldl (fun s b => updateTSDCount b.1 b.2 s) initialTSDEngineState

/-! ## Theorems -/

/-! ### Helper lemmas on `transitionTo` and list surgery -/

@[simp] theorem transitionTo_state (m : Machine) (s : SystemState)
    (t : String) (n : ℤ) : (transitionTo m s t n).state = s := rfl

@[simp] theorem transitionTo_positions (m : Machine) (s : SystemState)
    (t : String) (n : ℤ) : (transitionTo m s t n).positions = m.positions :=
  rfl

@[simp] theorem transitionTo_dailyLossCount (m : Machine) (s : SystemState)
    (t : String) (n : ℤ) :
    (transitionTo m s t n).dailyLossCount = m.dailyLossCount := rfl

@[simp] theorem transitionTo_lockUntil (m : Machine) (s : SystemState)
    (t : String) (n : ℤ) : (transitionTo m s t n).lockUntil = m.lockUntil :=
  rfl

/-! ### C4: TSD counter update -/

/-- Per-step behaviour and nonnegativity preservation of the counter. -/
theorem updateTSDCount_step (b : Bool) (today : ℤ) (s : TSDEngineState) :
    (updateTSDCount b today s).tsdCount =
      if b then s.tsdCount + 1 else max 0 (s.tsdCount - 1) := by
  cases b <;> simp [updateTSDCount]

theorem tsdRun_aux_nonneg (l : List (Bool × ℤ)) (s : TSDEngineState)
    (h : 0 ≤ s.tsdCount) :
    0 ≤ (l.foldl (fun s b => updateTSDCount b.1 b.2 s) s).tsdCount := by
  induction l generalizing s with
  | nil => exact h
  | cons hd tl ih =>
      refine ih _ ?_
      rw [updateTSDCount_step]
      cases hd.1
      · simp
      · simp only [if_pos]; omega

/-- C4: `updateTSDCount` increments the counter by 1 on a shift day and
otherwise decays it by 1 floored at 0; hence after any input sequence from
the initial state the counter is ≥ 0, and the sequence
[shift, shift, shift, no-shift] yields counts [1, 2, 3, 2]. -/
theorem updateTSDCount_nonneg_and_scenario :
    (∀ (b : Bool) (today : ℤ) (s : TSDEngineState),
      (updateTSDCount b today s).tsdCount =
        if b then s.tsdCount + 1 else max 0 (s.tsdCount - 1)) ∧
    (∀ l : List (Bool × ℤ), 0 ≤ (tsdRun l).tsdCount) ∧
    ((tsdRun [(true, 0)]).tsdCount = 1 ∧
      (tsdRun [(true, 0), (true, 0)]).tsdCount = 2 ∧
      (tsdRun [(true, 0), (true, 0), (true, 0)]).tsdCount = 3 ∧
      (tsdRun [(true, 0), (true, 0), (true, 0), (false, 0)]).tsdCount = 2) := by
  refine ⟨updateTSDCount_step, fun l => tsdRun_aux_nonneg l _ ?_, ?_⟩
  · simp [initialTSDEngineState]
  · refine ⟨by decide, by decide, by decide, by decide⟩

/-! ### C5: regime classification -/

/-- C5: with the default thresholds A=3, B=7, `determineRegime` maps counts
below A to RANGE_NEUTRAL, counts in [A, B) to EMERGING_TREND, counts ≥ B to
ESTABLISHED_TREND; it is monotone non-decreasing in the count under the
regime order, and `determineRegime 0 = RANGE_NEUTRAL`. -/
theorem determineRegime_thresholds_and_monotone :
    (∀ c : ℤ, c < 3 → determineRegime c 3 7 = .rangeNeutral) ∧
    (∀ c : ℤ, 3 ≤ c → c < 7 → determineRegime c 3 7 = .emergingTrend) ∧
    (∀ c : ℤ, 7 ≤ c → determineRegime c 3 7 = .establishedTrend) ∧
    (∀ c₁ c₂ : ℤ, c₁ ≤ c₂ →
      regimeRank (determineRegime c₁ 3 7) ≤
        regimeRank (determineRegime c₂ 3 7)) ∧
    determineRegime 0 3 7 = .rangeNeutral := by
  refine ⟨?_, ?_, ?_, ?_, by decide⟩
  · intro c hc; simp [determineRegime, hc]
  · intro c h1 h2
    simp only [determineRegime]
    rw [if_neg (by omega), if_pos h2]
  · intro c hc
    simp only [determineRegime]
    rw [if_neg (by omega), if_neg (by omega)]
  · intro c₁ c₂ hle
    simp only [determineRegime]
    split_ifs <;> simp [regimeRank] <;> omega

/-- Witness for C5 at concrete counts 2, 5, 9 and the pair (1, 8). -/
theorem determineRegime_thresholds_and_monotone_witness :
    determineRegime 2 3 7 = .rangeNeutral ∧
    determineRegime 5 3 7 = .emergingTrend ∧
    determineRegime 9 3 7 = .establishedTrend ∧
    regimeRank (determineRegime 1 3 7) ≤ regimeRank (determineRegime 8 3 7) :=
  ⟨determineRegime_thresholds_and_monotone.1 2 (by decide),
   determineRegime_thresholds_and_monotone.2.1 5 (by decide) (by decide),
   determineRegime_thresholds_and_monotone.2.2.1 9 (by decide),
   determineRegime_thresholds_and_monotone.2.2.2.1 1 8 (by decide)⟩

/-! ### Behaviour of the `closePosition` tail -/

@[simp] theorem closeBookkeeping_positions (cfg : StateMachineConfig)
    (m₁ : Machine) (pnl : ℚ) (r : String) (now : ℤ) :
    (closeBookkeeping cfg m₁ pnl r now).positions = m₁.positions := by
  simp [closeBookkeeping, apply_ite Machine.positions]

theorem closeBookkeeping_of_neg (cfg : StateMachineConfig) (m₁ : Machine)
    (pnl : ℚ) (r : String) (now : ℤ) (h : pnl < 0) :
    (closeBookkeeping cfg m₁ pnl r now).dailyLossCount
        = m₁.dailyLossCount + 1 ∧
      (cfg.maxDailyLosses ≤ m₁.dailyLossCount + 1 →
        (closeBookkeeping cfg m₁ pnl r now).state = .haltedForDay) ∧
      (m₁.dailyLossCount + 1 < cfg.maxDailyLosses →
        (closeBookkeeping cfg m₁ pnl r now).state = .lockedAfterLoss ∧
          (closeBookkeeping cfg m₁ pnl r now).lockUntil
            = some (now + cfg.lockDurationMs)) := by
  have hd : decide (pnl < 0) = true := decide_eq_true h
  simp only [closeBookkeeping, hd, Bool.or_true, Bool.true_and, if_true]
  refine ⟨?_, ?_, ?_⟩
  · split_ifs <;> simp
  · intro hge
    rw [if_pos (by simpa using hge)]
    simp
  · intro hlt
    rw [if_neg (by simpa using Nat.not_le.mpr hlt)]
    simp

theorem closeBookkeeping_of_nonneg (cfg : StateMachineConfig) (m₁ : Machine)
    (pnl : ℚ) (r : String) (now : ℤ) (h : 0 ≤ pnl) :
    (closeBookkeeping cfg m₁ pnl r now).dailyLossCount
      = m₁.dailyLossCount := by
  have hd : decide (pnl < 0) = false := decide_eq_false (not_lt.mpr h)
  simp only [closeBookkeeping, hd, Bool.and_false, Bool.false_eq_true,
    if_false]
  split_ifs <;> simp

/-- Reduction of `closePosition` on a found, not-yet-closed position. -/
theorem closePosition_eq_of_found (cfg : StateMachineConfig) (m : Machine)
    (pid exitReason : String) (exitPrice : ℚ) (now : ℤ)
    (p : ManagedPosition)
    (hfind : m.positions.find? (fun q => q.id == pid) = some p)
    (hopen : p.state ≠ .closed) :
    closePosition cfg m pid exitReason exitPrice now
      = (closeBookkeeping cfg
          { m with
              positions := updatedPositions m pid
                (closedPositionUpdate p exitReason exitPrice) }
          (finalPnlOf p exitPrice) exitReason now,
        some (closedPositionUpdate p exitReason exitPrice)) := by
  have hbeq : (p.state == PosState.closed) = false := by simpa using hopen
  simp only [closePosition, hfind, hbeq, Bool.false_eq_true, if_false]

/-! ### C1: loss counting in `closePosition` -/

/-- C1 counterexample: a `closePosition` call whose exit reason does NOT
indicate a stop/loss ("Manual exit" contains neither "stop" nor "sl") still
increments the daily loss counter, because the code's `isStopLoss` test also
fires on a negative PnL alone. -/
theorem closePosition_increments_on_manual_loss :
    stopLossText "Manual exit" = false ∧
    finalPnlOf fixPos 90 < 0 ∧
    fixMachine.dailyLossCount = 0 ∧
    (closePosition cfgDefault fixMachine "p1" "Manual exit" 90
        0).1.dailyLossCount = 1 := by
  have hst : stopLossText "Manual exit" = false := by decide
  refine ⟨hst, by norm_num [finalPnlOf, fixPos], rfl, ?_⟩
  have hpnl : finalPnlOf fixPos 90 < 0 := by norm_num [finalPnlOf, fixPos]
  rw [closePosition_eq_of_found cfgDefault fixMachine "p1" "Manual exit" 90 0
    fixPos rfl (by decide)]
  have hd := closeBookkeeping_of_neg cfgDefault
    { fixMachine with
        positions := updatedPositions fixMachine "p1"
          (closedPositionUpdate fixPos "Manual exit" 90) }
    (finalPnlOf fixPos 90) "Manual exit" 0 hpnl
  simpa [fixMachine] using hd.1

/-- C1 amended: the daily loss counter is incremented exactly when the
computed PnL is negative (regardless of the exit-reason text, which the
code's disjunction makes redundant); when the incremented counter reaches
`maxDailyLosses` the machine transitions to HALTED_FOR_DAY, and otherwise to
LOCKED_AFTER_LOSS with lock expiry `now + lockDurationMs`. -/
theorem closePosition_loss_counter_amended
    (cfg : StateMachineConfig) (m : Machine) (pid exitReason : String)
    (exitPrice : ℚ) (now : ℤ) (p : ManagedPosition)
    (hfind : m.positions.find? (fun q => q.id == pid) = some p)
    (hopen : p.state ≠ .closed) :
    (finalPnlOf p exitPrice < 0 →
      (closePosition cfg m pid exitReason exitPrice now).1.dailyLossCount
          = m.dailyLossCount + 1 ∧
        (cfg.maxDailyLosses ≤ m.dailyLossCount + 1 →
          (closePosition cfg m pid exitReason exitPrice now).1.state
            = .haltedForDay) ∧
        (m.dailyLossCount + 1 < cfg.maxDailyLosses →
          (closePosition cfg m pid exitReason exitPrice now).1.state
              = .lockedAfterLoss ∧
            (closePosition cfg m pid exitReason exitPrice now).1.lockUntil
              = some (now + cfg.lockDurationMs))) ∧
    (0 ≤ finalPnlOf p exitPrice →
      (closePosition cfg m pid exitReason exitPrice now).1.dailyLossCount
        = m.dailyLossCount) := by
  rw [closePosition_eq_of_found cfg m pid exitReason exitPrice now p hfind
    hopen]
  constructor
  · intro h
    exact closeBookkeeping_of_neg cfg _ _ exitReason now h
  · intro h
    exact closeBookkeeping_of_nonneg cfg _ _ exitReason now h

/-- Witness for C1's amended theorem at a concrete losing stop-loss close. -/
theorem closePosition_loss_counter_amended_witness :
    (closePosition cfgDefault fixMachine "p1" "Stop-loss hit" 90
        0).1.dailyLossCount = fixMachine.dailyLossCount + 1 ∧
    (closePosition cfgDefault fixMachine "p1" "Stop-loss hit" 90 0).1.state
      = .lockedAfterLoss ∧
    (closePosition cfgDefault fixMachine "p1" "Stop-loss hit" 90
        0).1.lockUntil = some 300000 := by
  have h := closePosition_loss_counter_amended cfgDefault fixMachine "p1"
    "Stop-loss hit" 90 0 fixPos rfl (by decide)
  have h1 := h.1 (by norm_num [finalPnlOf, fixPos])
  refine ⟨h1.1, (h1.2.2 (by decide)).1, ?_⟩
  have := (h1.2.2 (by decide)).2
  simpa [cfgDefault] using this

/-! ### C3: idempotence of `closePosition` -/

theorem find?_updateFirst (pred : α → Bool) (f : α → α) (l : List α)
    (a : α) (h : l.find? pred = some a) (hf : pred (f a) = true) :
    (updateFirst pred f l).find? pred = some (f a) := by
  induction l with
  | nil => simp at h
  | cons x xs ih =>
      by_cases hx : pred x = true
      · rw [List.find?_cons_of_pos _ hx] at h
        obtain rfl : x = a := by injection h
        simp [updateFirst, hx, List.find?_cons_of_pos _ hf]
      · rw [List.find?_cons_of_neg _ (by simpa using hx)] at h
        simp [updateFirst, hx, List.find?_cons_of_neg _ (by simpa using hx),
          ih h]

/-- C3: `closePosition` is idempotent per position id — once a first call has
closed the position and returned it, a second call with the same id returns
`null` and leaves the whole machine (positions, loss counter, state)
unchanged. -/
theorem closePosition_idempotent
    (cfg cfg' : StateMachineConfig) (m m' : Machine)
    (pid r r' : String) (x x' : ℚ) (now now' : ℤ) (p : ManagedPosition)
    (h : closePosition cfg m pid r x now = (m', some p)) :
    closePosition cfg' m' pid r' x' now' = (m', none) := by
  cases hfind : m.positions.find? (fun q => q.id == pid) with
  | none =>
      simp only [closePosition, hfind] at h
      simp [Prod.ext_iff] at h
  | some q =>
      by_cases hcl : q.state = PosState.closed
      · have hq : (q.state == PosState.closed) = true := by simp [hcl]
        simp only [closePosition, hfind, hq, if_true] at h
        simp [Prod.ext_iff] at h
      · have hrw := closePosition_eq_of_found cfg m pid r x now q hfind hcl
        rw [hrw] at h
        rw [Prod.mk.injEq] at h
        obtain ⟨hm', hp⟩ := h
        rw [Option.some.injEq] at hp
        have hq0 := List.find?_some hfind
        have hq : (q.id == pid) = true := hq0
        have hposs : m'.positions
            = updatedPositions m pid (closedPositionUpdate q r x) := by
          rw [← hm']
          simp
        have hu : ((closedPositionUpdate q r x).id == pid) = true := hq
        have hfind2 : m'.positions.find? (fun z => z.id == pid)
            = some (closedPositionUpdate q r x) := by
          rw [hposs]
          exact find?_updateFirst (fun z => z.id == pid)
            (fun _ => closedPositionUpdate q r x) m.positions q hfind hu
        have hclosed :
            ((closedPositionUpdate q r x).state == PosState.closed) = true :=
          rfl
        simp only [closePosition, hfind2, hclosed, if_true]

/-- `fixPos` after the first close at 105 with reason "Target hit". -/
def fixPosClosed : ManagedPosition :=
  { fixPos with
      current := 105, pnl := 5, state := .closed,
      exitReason := some "Target hit" }

/-- `fixMachine` after the first close: all positions closed, back to IDLE. -/
def fixMachineClosed : Machine :=
  { state := .idle, positions := [fixPosClosed],
    transitions := [⟨.positionOpen, .idle, "All positions closed", 0⟩],
    dailyLossCount := 0, lockUntil := none }

/-- Witness for C3: a concrete profitable close followed by a repeat call. -/
theorem closePosition_idempotent_witness :
    closePosition cfgDefault fixMachineClosed "p1" "Target hit" 105 1
      = (fixMachineClosed, none) := by
  apply closePosition_idempotent cfgDefault cfgDefault fixMachine
    fixMachineClosed "p1" "Target hit" "Target hit" 105 105 0 1 fixPosClosed
  rw [closePosition_eq_of_found cfgDefault fixMachine "p1" "Target hit" 105 0
    fixPos rfl (by decide)]
  have hupd : closedPositionUpdate fixPos "Target hit" 105 = fixPosClosed := by
    simp only [closedPositionUpdate, fixPos, fixPosClosed]
    norm_num [finalPnlOf, toFixed2, round_eq]
  have hlist :
      updatedPositions fixMachine "p1"
          (closedPositionUpdate fixPos "Target hit" 105) = [fixPosClosed] := by
    rw [hupd]
    simp [updatedPositions, updateFirst, fixMachine, fixPos]
  have hd : decide (finalPnlOf fixPos 105 < 0) = false := by
    simp only [decide_eq_false_iff_not]
    norm_num [finalPnlOf, fixPos]
  rw [Prod.mk.injEq]
  refine ⟨?_, by rw [hupd]⟩
  rw [hlist]
  simp only [closeBookkeeping, hd, Bool.and_false, Bool.false_eq_true,
    if_false]
  rw [if_pos]
  · simp [transitionTo, fixMachine, fixMachineClosed]
  · simp [getOpenPositions, fixMachine, fixPosClosed]

/-! ### C2: `resetForNewDay` while halted with an open position -/

/-- C2 counterexample: from HALTED_FOR_DAY with 2 closed + 1 open (FILLED)
position, `resetForNewDay` leaves exactly the open position, zeroes the
counter, clears the lock and the log — but the resulting state is IDLE, not
POSITION_OPEN as the claim asserts. -/
theorem resetForNewDay_goes_idle_not_positionOpen :
    (resetForNewDay haltedMachine 10).state = .idle ∧
    (resetForNewDay haltedMachine 10).state ≠ .positionOpen ∧
    (resetForNewDay haltedMachine 10).positions = [fixPos] ∧
    fixPos.state = .filled ∧
    (resetForNewDay haltedMachine 10).dailyLossCount = 0 ∧
    (resetForNewDay haltedMachine 10).lockUntil = none ∧
    (resetForNewDay haltedMachine 10).transitions = [] := by
  refine ⟨rfl, by decide, rfl, rfl, rfl, rfl, rfl⟩

/-- C2 amended: from HALTED_FOR_DAY, `resetForNewDay` zeroes the loss
counter, clears the lock, keeps exactly the non-CLOSED positions, empties the
transition log, and transitions to IDLE unconditionally — even when an open
position remains. -/
theorem resetForNewDay_amended (m : Machine) (now : ℤ)
    (h : m.state = .haltedForDay) :
    (resetForNewDay m now).dailyLossCount = 0 ∧
    (resetForNewDay m now).lockUntil = none ∧
    (resetForNewDay m now).positions
      = m.positions.filter (fun p => p.state != .closed) ∧
    (resetForNewDay m now).transitions = [] ∧
    (resetForNewDay m now).state = .idle := by
  simp [resetForNewDay, transitionTo, h]

/-- Witness for C2's amended theorem at the concrete halted machine. -/
theorem resetForNewDay_amended_witness :
    (resetForNewDay haltedMachine 10).dailyLossCount = 0 ∧
    (resetForNewDay haltedMachine 10).lockUntil = none ∧
    (resetForNewDay haltedMachine 10).positions
      = haltedMachine.positions.filter (fun p => p.state != .closed) ∧
    (resetForNewDay haltedMachine 10).transitions = [] ∧
    (resetForNewDay haltedMachine 10).state = .idle :=
  resetForNewDay_amended haltedMachine 10 rfl

/-! ### C10: a denied `openPosition` mutates nothing -/

theorem canOpen_denied_machine_unchanged (cfg : StateMachineConfig)
    (m : Machine) (now : ℤ)
    (h : (canOpenPosition cfg m now).2 = false) :
    (canOpenPosition cfg m now).1 = m := by
  unfold canOpenPosition getStateUpd at h ⊢
  cases hs : m.state with
  | idle => simp [hs] at h
  | waitingForTrigger => simp [hs] at h
  | positionOpen => simp [hs]
  | haltedForDay => simp [hs]
  | lockedAfterLoss =>
      cases hl : m.lockUntil with
      | none => simp [hs, hl]
      | some t =>
          by_cases hn : now > t
          · simp [hs, hl, hn] at h
          · simp [hs, hl, hn]

/-- C10: whenever `canOpenPosition` denies, `openPosition` returns `null`
and the machine is perfectly unchanged: same position list, same state, same
daily loss counter (and even the same transition log and lock). -/
theorem openPosition_denied_noop (cfg : StateMachineConfig) (m : Machine)
    (now : ℤ) (newId : String) (pos : OpenPositionInput)
    (h : (canOpenPosition cfg m now).2 = false) :
    openPosition cfg m now newId pos = (m, none) := by
  simp [openPosition, h, canOpen_denied_machine_unchanged cfg m now h]

/-- A halted machine with no positions. -/
def fixHalted : Machine :=
  { state := .haltedForDay, positions := [], transitions := [],
    dailyLossCount := 0, lockUntil := none }

/-- A trade input for `openPosition` witnesses. -/
def fixOpenInput : OpenPositionInput :=
  { symbol := "TCS", side := .long, entry := 100, current := 100, qty := 1,
    pnl := 0, stopLoss := 98, target := 106, regime := "RANGE_NEUTRAL",
    exitReason := none }

/-- Witness for C10 on a HALTED_FOR_DAY machine. -/
theorem openPosition_denied_noop_witness :
    openPosition cfgDefault fixHalted 0 "POS_1" fixOpenInput
      = (fixHalted, none) :=
  openPosition_denied_noop cfgDefault fixHalted 0 "POS_1" fixOpenInput rfl

/-! ### C6: position sizing and the minimum-1-share clamp -/

/-- A concrete gate configuration (riskGate defaults with 1% per-trade
risk). -/
def cfgRisk : RiskGateConfig :=
  { maxRiskPerTrade := 1/100, maxDailyDrawdown := 3/200, maxDailyLoss := 5000,
    maxConcurrentPositions := 4, maxCorrelatedPositions := 2,
    maxSingleStockExposure := 3/20 }

/-- The spec's sizing scenario signal: entry 100, stop 98. -/
def sigC6 : TradeSignal :=
  { symbol := "RELIANCE", side := .long, entry := 100, stop := 98,
    target := 106, requestedQty := none }

/-- The spec's sizing formula, stated from its words: base size
`floor(riskAmount / stopDistance)`, multiplied by the regime's size
multiplier and floored, minimum 1 share. -/
def specPositionSize (cfg : RiskGateConfig) (signal : TradeSignal)
    (capital : ℚ) (regime : MarketRegime) : ℚ :=
  let base : ℤ :=
    ⌊capital * cfg.maxRiskPerTrade / |signal.entry - signal.stop|⌋
  let mult := (getRegimePermissions regime).maxPositionSizeMultiplier
  max 1 ((⌊(base : ℚ) * mult⌋ : ℤ) : ℚ)

/-- C6: `validateTrade`'s adjusted size is always ≥ 1; with no requested
quantity and a nonzero stop distance it equals the spec's formula
`max 1 ⌊⌊capital·maxRiskPerTrade / |entry−stop|⌋ · multiplier⌋`; and the base
size for capital 100000, risk 1%, entry 100, stop 98 is ⌊1000/2⌋ = 500. -/
theorem validateTrade_adjustedSize :
    (∀ (cfg : RiskGateConfig) (smCfg : StateMachineConfig) (machine : Machine)
        (now : ℤ) (signal : TradeSignal) (capital currentPnl : ℚ)
        (regime : MarketRegime) (ops : List ManagedPosition),
      1 ≤ (validateTrade cfg smCfg machine now signal capital currentPnl
            regime ops).adjustedSize) ∧
    (∀ (cfg : RiskGateConfig) (smCfg : StateMachineConfig) (machine : Machine)
        (now : ℤ) (signal : TradeSignal) (capital currentPnl : ℚ)
        (regime : MarketRegime) (ops : List ManagedPosition),
      signal.requestedQty = none → signal.entry ≠ signal.stop →
      (validateTrade cfg smCfg machine now signal capital currentPnl regime
          ops).adjustedSize = specPositionSize cfg signal capital regime) ∧
    calculatePositionSize cfgRisk sigC6 100000 = 500 := by
  refine ⟨?_, ?_, ?_⟩
  · intro cfg smCfg machine now signal capital currentPnl regime ops
    simp only [validateTrade]
    exact le_max_left 1 _
  · intro cfg smCfg machine now signal capital currentPnl regime ops hq hne
    simp only [validateTrade, hq, Option.getD_none, calculatePositionSize,
      specPositionSize]
    rw [if_neg (by simpa [sub_eq_zero] using hne)]
  · norm_num [calculatePositionSize, cfgRisk, sigC6]

/-- Witness for C6 at the spec's scenario inputs. -/
theorem validateTrade_adjustedSize_witness :
    1 ≤ (validateTrade cfgRisk cfgDefault fixHalted 0 sigC6 100000 0
          .rangeNeutral []).adjustedSize ∧
    (validateTrade cfgRisk cfgDefault fixHalted 0 sigC6 100000 0 .rangeNeutral
        []).adjustedSize = specPositionSize cfgRisk sigC6 100000
          .rangeNeutral :=
  ⟨validateTrade_adjustedSize.1 cfgRisk cfgDefault fixHalted 0 sigC6 100000 0
      .rangeNeutral [],
   validateTrade_adjustedSize.2.1 cfgRisk cfgDefault fixHalted 0 sigC6 100000
      0 .rangeNeutral [] rfl (by norm_num [sigC6])⟩

/-! ### C7: the single-stock exposure check -/

/-- A signal whose notional alone exceeds 15% of capital. -/
def sigBig : TradeSignal :=
  { symbol := "TCS", side := .long, entry := 100000, stop := 99000,
    target := 101000, requestedQty := some 1 }

/-- C7: with positive capital, check 6 fails exactly when existing symbol
notional plus the new notional exceeds `maxSingleStockExposure × capital`,
and a failing check 6 forces the overall `validateTrade` verdict to false
regardless of the other checks. -/
theorem exposure_check_gates (cfg : RiskGateConfig)
    (smCfg : StateMachineConfig) (machine : Machine) (now : ℤ)
    (signal : TradeSignal) (capital currentPnl : ℚ) (regime : MarketRegime)
    (ops : List ManagedPosition) (hc : 0 < capital) :
    ((checkSingleStockExposure cfg signal capital ops).passed = false ↔
      cfg.maxSingleStockExposure * capital <
        (ops.filter (fun p => p.symbol == signal.symbol)).foldl
            (fun sum p => sum + p.entry * p.qty) 0
          + signal.entry * (signal.requestedQty.getD 1)) ∧
    ((checkSingleStockExposure cfg signal capital ops).passed = false →
      (validateTrade cfg smCfg machine now signal capital currentPnl regime
          ops).passed = false) := by
  constructor
  · simp only [checkSingleStockExposure]
    rw [decide_eq_false_iff_not, not_le, lt_div_iff₀ hc]
  · intro h
    simp [validateTrade, List.all_cons, h]

/-- Witness for C7: a 100% -of-capital notional fails the 15% cap. -/
theorem exposure_check_gates_witness :
    ((checkSingleStockExposure cfgRisk sigBig 100000 []).passed = false ↔
      cfgRisk.maxSingleStockExposure * 100000 <
        (([] : List ManagedPosition).filter
            (fun p => p.symbol == sigBig.symbol)).foldl
            (fun sum p => sum + p.entry * p.qty) 0
          + sigBig.entry * (sigBig.requestedQty.getD 1)) ∧
    ((checkSingleStockExposure cfgRisk sigBig 100000 []).passed = false →
      (validateTrade cfgRisk cfgDefault fixHalted 0 sigBig 100000 0
          .rangeNeutral []).passed = false) :=
  exposure_check_gates cfgRisk cfgDefault fixHalted 0 sigBig 100000 0
    .rangeNeutral [] (by norm_num)

/-! ### C8: the volatility-floor filter -/

/-- A perfectly flat 5-minute candle (zero range). -/
def flatCandle : OHLCV :=
  { symbol := "X", open_ := 100, high := 100, low := 100, close := 100,
    volume := 0, timestamp := none }

/-- Twenty flat candles: enough data for the length gate, but ATR(14) = 0,
so the range-to-ATR ratio is not evaluable. -/
def flatCandles : List OHLCV := List.replicate 20 flatCandle

/-- A candle with a 1-point range. -/
def rangeCandle : OHLCV :=
  { symbol := "X", open_ := 100, high := 101, low := 100, close := 100,
    volume := 0, timestamp := none }

/-- Twenty 1-point-range candles: ATR(14) = 1. -/
def rangeCandles : List OHLCV := List.replicate 20 rangeCandle

theorem flatCandles_atr : getCurrentATR flatCandles 14 = 0 := by
  norm_num [flatCandles, flatCandle, getCurrentATR, calculateATR, trTail,
    calculateEMA, emaStep, List.replicate]

theorem rangeCandles_atr : getCurrentATR rangeCandles 14 = 1 := by
  norm_num [rangeCandles, rangeCandle, getCurrentATR, calculateATR, trTail,
    calculateEMA, emaStep, List.replicate]

/-- C8 counterexample: with 20 flat candles the data is insufficient to
evaluate the first-hour-range-to-ATR ratio (ATR(14) = 0), yet the filter
does NOT skip the day: it silently passes via the
"ATR unavailable, proceeding cautiously" branch. -/
theorem shouldSkip_passes_on_zero_atr :
    20 ≤ flatCandles.length ∧
    getCurrentATR flatCandles 14 = 0 ∧
    (shouldSkipToday (1/2) flatCandles).1 = false := by
  refine ⟨by decide, flatCandles_atr, ?_⟩
  rw [shouldSkipToday, if_neg (by decide), if_pos (le_of_eq flatCandles_atr)]

/-- C8 amended: the filter skips whenever fewer than 20 candles are
available; when ATR(14) ≤ 0 it does NOT skip (it passes "cautiously"
although the ratio is not evaluable); otherwise it skips exactly when the
first-hour-range-to-ATR ratio is below the configured minimum. -/
theorem shouldSkipToday_amended (minRatio : ℚ) (candles : List OHLCV) :
    (candles.length < 20 → (shouldSkipToday minRatio candles).1 = true) ∧
    (20 ≤ candles.length → getCurrentATR candles 14 ≤ 0 →
      (shouldSkipToday minRatio candles).1 = false) ∧
    (20 ≤ candles.length → 0 < getCurrentATR candles 14 →
      ((shouldSkipToday minRatio candles).1 = true ↔
        firstHourRange candles / getCurrentATR candles 14 < minRatio)) := by
  refine ⟨?_, ?_, ?_⟩
  · intro h
    rw [shouldSkipToday, if_pos h]
  · intro h1 h2
    rw [shouldSkipToday, if_neg (not_lt.mpr h1), if_pos h2]
  · intro h1 h2
    rw [shouldSkipToday, if_neg (not_lt.mpr h1), if_neg (not_le.mpr h2)]
    simp only []
    split_ifs with h3 <;> simp [h3]

/-- Witness for C8's amended theorem: no data ⇒ skip; flat candles ⇒ pass
despite zero ATR; 1-point-range candles with ATR 1 ⇒ the ratio criterion. -/
theorem shouldSkipToday_amended_witness :
    (shouldSkipToday (1/2) []).1 = true ∧
    (shouldSkipToday (1/2) flatCandles).1 = false ∧
    ((shouldSkipToday (1/2) rangeCandles).1 = true ↔
      firstHourRange rangeCandles / getCurrentATR rangeCandles 14
        < (1/2 : ℚ)) :=
  ⟨(shouldSkipToday_amended (1/2) []).1 (by decide),
   (shouldSkipToday_amended (1/2) flatCandles).2.1 (by decide)
     (le_of_eq flatCandles_atr),
   (shouldSkipToday_amended (1/2) rangeCandles).2.2 (by decide)
     (by rw [rangeCandles_atr]; norm_num)⟩

/-! ### C9: positions without a quoted price are never touched -/

theorem mem_updateFirst_of_pred_false {pred : α → Bool} {f : α → α}
    {l : List α} {a : α} (h : a ∈ l) (ha : pred a = false) :
    a ∈ updateFirst pred f l := by
  induction l with
  | nil => simp at h
  | cons x xs ih =>
      rcases List.mem_cons.mp h with rfl | hx
      · simp [updateFirst, ha]
      · by_cases hpx : pred x = true
        · simp only [updateFirst, hpx, if_true]
          exact List.mem_cons_of_mem _ hx
        · simp only [updateFirst, hpx, if_false]
          exact List.mem_cons_of_mem _ (ih hx)

theorem closePosition_mem_of_id_ne (cfg : StateMachineConfig) (m : Machine)
    (qid r : String) (x : ℚ) (now : ℤ) (p : ManagedPosition)
    (hmem : p ∈ m.positions) (hne : (p.id == qid) = false) :
    p ∈ (closePosition cfg m qid r x now).1.positions := by
  cases hfind : m.positions.find? (fun z => z.id == qid) with
  | none =>
      simp only [closePosition, hfind]
      exact hmem
  | some z =>
      by_cases hz : z.state = PosState.closed
      · have hzb : (z.state == PosState.closed) = true := by simp [hz]
        simp only [closePosition, hfind, hzb, if_true]
        exact hmem
      · rw [closePosition_eq_of_found cfg m qid r x now z hfind hz]
        simp only [closeBookkeeping_positions, updatedPositions]
        exact mem_updateFirst_of_pred_false hmem hne

theorem exitStep_mem_of_ne (cfg : StateMachineConfig)
    (pm : List (String × ℚ)) (now : ℤ) (acc : Machine × List String)
    (q p : ManagedPosition) (hacc : p ∈ acc.1.positions)
    (hne : (p.id == q.id) = false) :
    p ∈ (exitStep cfg pm now acc q).1.positions := by
  cases htp : truthyPrice pm q.symbol with
  | none =>
      simp only [exitStep, htp]
      exact hacc
  | some price =>
      simp only [exitStep, htp]
      split_ifs <;>
        first
          | exact closePosition_mem_of_id_ne cfg _ q.id _ price now p
              (closePosition_mem_of_id_ne cfg _ q.id _ price now p hacc hne)
              hne
          | exact closePosition_mem_of_id_ne cfg _ q.id _ price now p hacc
              hne
          | exact hacc

theorem exitFold_mem (cfg : StateMachineConfig) (pm : List (String × ℚ))
    (now : ℤ) (p : ManagedPosition)
    (hnp : truthyPrice pm p.symbol = none) :
    ∀ (l : List ManagedPosition) (acc : Machine × List String),
      p ∈ acc.1.positions →
      (∀ q ∈ l, q = p ∨ (p.id == q.id) = false) →
      p ∈ (l.foldl (exitStep cfg pm now) acc).1.positions := by
  intro l
  induction l with
  | nil =>
      intro acc h _
      exact h
  | cons q rest ih =>
      intro acc hacc hl
      simp only [List.foldl_cons]
      apply ih
      · rcases hl q (by simp) with hqp | hne
        · subst hqp
          simp only [exitStep, hnp]
          exact hacc
        · exact exitStep_mem_of_ne cfg pm now acc q p hacc hne
      · intro q' hq'
        exact hl q' (by simp [hq'])

/-- C9: a position whose symbol has no price in the map is left untouched by
`updatePositionPrices` (element-wise identity and membership preserved) and
survives `checkExits` unchanged — no close and no state change — provided
position ids are distinct (as the generated ids are). -/
theorem noPrice_position_untouched (cfg : StateMachineConfig) (m : Machine)
    (pm : List (String × ℚ)) (now : ℤ) (p : ManagedPosition)
    (hmem : p ∈ m.positions)
    (hnoprice : lookupPrice pm p.symbol = none)
    (hids : (m.positions.map (fun q => q.id)).Nodup) :
    updOnePrice pm p = p ∧
    p ∈ (updatePositionPrices m pm).positions ∧
    p ∈ (checkExits cfg m pm now).1.positions := by
  have htp : truthyPrice pm p.symbol = none := by
    simp [truthyPrice, hnoprice]
  have hupd : updOnePrice pm p = p := by
    simp [updOnePrice, htp]
  refine ⟨hupd, ?_, ?_⟩
  · have := List.mem_map_of_mem (updOnePrice pm) hmem
    rw [hupd] at this
    simpa [updatePositionPrices] using this
  · have hsnap : ∀ q ∈ getOpenPositions m, q = p ∨ (p.id == q.id) = false := by
      intro q hq
      by_cases hqp : q = p
      · exact Or.inl hqp
      · right
        have hqmem : q ∈ m.positions := List.mem_of_mem_filter hq
        rw [beq_eq_false_iff_ne]
        intro heq
        exact hqp (List.inj_on_of_nodup_map hids hqmem hmem heq.symm)
    exact exitFold_mem cfg pm now p htp (getOpenPositions m) (m, []) hmem
      hsnap

/-- Witness for C9: an empty price map against the one-position machine. -/
theorem noPrice_position_untouched_witness :
    updOnePrice [] fixPos = fixPos ∧
    fixPos ∈ (updatePositionPrices fixMachine []).positions ∧
    fixPos ∈ (checkExits cfgDefault fixMachine [] 0).1.positions :=
  noPrice_position_untouched cfgDefault fixMachine [] 0 fixPos
    (by simp [fixMachine]) (by simp [lookupPrice]) (by simp [fixMachine])

end AgTrader
